import Mathlib

/-!
Shallow embedding of the key-lifecycle core of the mongodb-enc-poc repository:
tenant-to-provider resolution (`GetProviderName`), master-key persistence
(`LoadOrCreateMasterKey`), lookup-or-create DEK registration (`GetDek`),
encryption-client assembly (`NewEncClient`) and explicit decryption
(`decryptBinaryValue`), together with theorems settling the spec claims.

Strings are modelled as their character lists; the hierarchical separator is
the ASCII slash, so byte indices and character indices agree on the decisions
the code takes.  File-system and vault interactions are made explicit: the
file system is a finite map from paths to byte lists, the random source a
deterministic stream, and the vault collaborator's responses are either
derived from an explicit store or supplied as oracle outcomes.
-/

set_option maxHeartbeats 1000000

namespace MongoEncPoc

/-- Index of the last occurrence of the separator in a character list
(`none` when absent), the character-level meaning of
`strings.LastIndex(devOrgDON, "/")` used at utils line 20. -/
def lastSlashIndexAux : List Char → Option Nat
  | [] => none
  | c :: cs =>
    match lastSlashIndexAux cs with
    | some i => some (i + 1)
    | none => if c = '/' then some 0 else none

/-- `strings.LastIndex(devOrgDON, "/")`: index of the last separator,
`-1` when the string has none. -/
def lastSlashIndex (s : String) : Int :=
  match lastSlashIndexAux s.data with
  | some i => (i : Int)
  | none => -1

/-- Embeds `GetProviderName` (utils lines 18-26): take the value after the
last slash and prefix it with `local:` when the last slash sits at a positive
index; otherwise fail with the format error message. -/
def GetProviderName (devOrgDON : String) : Except String String :=
  if 0 < lastSlashIndex devOrgDON then
    Except.ok
      ("local:" ++ String.mk (devOrgDON.data.drop ((lastSlashIndex devOrgDON).toNat + 1)))
  else
    Except.error ("invalid Dev org DON format: " ++ devOrgDON)

/-- Modelled from the spec: the trailing segment of a tenant identifier, the
longest separator-free suffix (the part after the last slash). -/
def trailingSegment (s : String) : String :=
  String.mk ((s.data.reverse.takeWhile (fun c => c != '/')).reverse)

/-- `true` exactly on the success constructor of `Except`. -/
def exOk {ε α : Type} : Except ε α → Bool
  | Except.ok _ => true
  | Except.error _ => false

/-- `true` exactly on the failure constructor of `Except`. -/
def exErr {ε α : Type} : Except ε α → Bool
  | Except.ok _ => false
  | Except.error _ => true

/-- `keySize` constant of `LoadOrCreateMasterKey` (utils line 130). -/
def keySize : Nat := 96

/-- Failure modes of `LoadOrCreateMasterKey` that remain once the directory,
stat, create, open and write operations of a healthy file system succeed:
the `file.Read` error branch (utils line 174, hit e.g. by the end-of-file
result on an empty artifact) and the size check branch (utils line 177). -/
inductive KeyErr
  | readFail
  | sizeMismatch (got : Nat)
deriving DecidableEq

/-- `filepath.Join("keys", providerName + "_master_key.bin")` (utils line 138). -/
def masterKeyPath (providerName : String) : String :=
  "keys/" ++ providerName ++ "_master_key.bin"

/-- The durable key storage: contents of each file path, `none` when the file
does not exist. -/
abbrev FsState : Type := String → Option (List Nat)

/-- Embeds `LoadOrCreateMasterKey` (utils lines 128-184) over an explicit file
system and a deterministic random byte stream.  Directory creation, stat,
create, open and write succeed (healthy file system); a single `file.Read`
into the 96-byte buffer returns `min(len(content), 96)` bytes, or the
end-of-file error when the file is empty.  On the generate path the fresh key
is written at the provider's path; on the read path the function returns the
96-byte buffer, which holds the first 96 bytes of the file when the size
check `n != keySize` passes. -/
def LoadOrCreateMasterKey (rand : Nat → Nat) (fs : FsState) (providerName : String) :
    Except KeyErr (List Nat) × FsState :=
  match fs (masterKeyPath providerName) with
  | none =>
    (Except.ok ((List.range keySize).map rand),
     fun q => if q = masterKeyPath providerName then some ((List.range keySize).map rand)
              else fs q)
  | some content =>
    if content.isEmpty then
      (Except.error KeyErr.readFail, fs)
    else if min content.length keySize ≠ keySize then
      (Except.error (KeyErr.sizeMismatch (min content.length keySize)), fs)
    else
      (Except.ok (content.take keySize), fs)

/-- `primitive.Binary`: a BSON binary value (subtype and raw bytes); DEK
identifiers are values of this shape. -/
structure Binary where
  subtype : Nat
  data : List Nat
deriving DecidableEq

/-- The BSON values the embedding needs: binary identifiers, strings and
integers. -/
inductive BsonValue
  | binary (b : Binary)
  | str (s : String)
  | int (n : Int)
deriving DecidableEq

/-- A decoded BSON document (`bson.D`): ordered key/value pairs. -/
abbrev BsonDoc : Type := List (String × BsonValue)

/-- Last-binding-wins association lookup: the lookup semantics of building a
Go map from an ordered pair list (`bson.D.Map()`, where later duplicate keys
overwrite earlier ones) and of a keyed store. -/
def lastAssoc {β : Type} (xs : List (String × β)) (k : String) : Option β :=
  xs.foldl (fun acc e => if e.1 = k then some e.2 else acc) none

/-- `dekDoc.Map()["_id"]` (utils line 88). -/
def docMapGet (d : BsonDoc) (k : String) : Option BsonValue := lastAssoc d k

/-- Whether a decoded DEK document carries a `primitive.Binary` under `_id`
(the two checks at utils lines 88-95). -/
def hasBinaryId (d : BsonDoc) : Bool :=
  match docMapGet d "_id" with
  | some (BsonValue.binary _) => true
  | _ => false

/-- Outcome of `clientEnc.GetKeyByAltName(...).Decode(&dekDoc)` (utils
lines 69-72): a successfully decoded document, the recognized
`mongo.ErrNoDocuments` outcome, or any other lookup/decode failure. -/
inductive DecodeResult
  | ok (doc : BsonDoc)
  | errNoDocuments
  | errOther
deriving DecidableEq

/-- Error taxonomy of `GetDek`, one constructor per `return nil, nil, ...`
branch of utils lines 28-97. -/
inductive DekErr
  | configErr
  | masterKeyErr (e : KeyErr)
  | connectErr
  | clientEncErr
  | createErr
  | decodeErr
  | missingId
  | idNotBinary
deriving DecidableEq

/-- The KMS providers map `{providerName: {"key": localMasterKey}}`. -/
abbrev KmsProviders : Type := List (String × List Nat)

/-- The external collaborators `GetDek` interacts with: the process
environment, the file system and random source feeding
`LoadOrCreateMasterKey`, the connect and client-encryption handle outcomes,
and the vault's per-alternate-name lookup and data-key creation responses. -/
structure DekWorld where
  env : String → String
  fs : FsState
  rand : Nat → Nat
  connectOk : Bool
  clientEncOk : Bool
  lookup : String → DecodeResult
  create : String → Option Binary

/-- The tail of `GetDek` from the decode of the alternate-name lookup onward
(utils lines 71-96): create on the recognized not-found outcome, propagate
any other decode failure, and otherwise extract a binary `_id` from the
decoded document. -/
def getDekAfterLookup (dr : DecodeResult) (createResult : Option Binary) :
    Except DekErr Binary × Bool :=
  match dr with
  | DecodeResult.errNoDocuments =>
    match createResult with
    | some newDek => (Except.ok newDek, true)
    | none => (Except.error DekErr.createErr, true)
  | DecodeResult.errOther => (Except.error DekErr.decodeErr, false)
  | DecodeResult.ok dekDoc =>
    match docMapGet dekDoc "_id" with
    | none => (Except.error DekErr.missingId, false)
    | some idVal =>
      match idVal with
      | BsonValue.binary b => (Except.ok b, false)
      | BsonValue.str s2 => (Except.error DekErr.idNotBinary, false)
      | BsonValue.int n2 => (Except.error DekErr.idNotBinary, false)

/-- Embeds `GetDek` (utils lines 28-97): environment check, master-key load,
KMS provider map assembly, client and client-encryption setup, then the
alternate-name lookup handled by `getDekAfterLookup`.  The second component
records whether `CreateDataKey` was invoked. -/
def GetDek (w : DekWorld) (providerName keyVaultNamespace : String) :
    Except DekErr (Binary × KmsProviders) × Bool :=
  if w.env "MONGODB_URI" = "" then (Except.error DekErr.configErr, false)
  else
    match (LoadOrCreateMasterKey w.rand w.fs providerName).1 with
    | Except.error e => (Except.error (DekErr.masterKeyErr e), false)
    | Except.ok localMasterKey =>
      let kmsProviders : KmsProviders := [(providerName, localMasterKey)]
      if w.connectOk = false then (Except.error DekErr.connectErr, false)
      else if w.clientEncOk = false then (Except.error DekErr.clientEncErr, false)
      else
        let keyAltName := "dek-" ++ providerName
        let r := getDekAfterLookup (w.lookup keyAltName) (w.create keyAltName)
        (r.1.map (fun b => (b, kmsProviders)), r.2)

/-- Modelled from the spec (external collaborator, spec section 6): the vault
collection, documents keyed by alternate name with exact-match lookup and at
most one DEK per alternate name, plus a counter minting fresh identifiers. -/
structure Vault where
  store : List (String × BsonDoc)
  fresh : Nat

/-- The vault's answer to the alternate-name lookup when the vault itself is
reachable: the stored document, or the recognized not-found outcome. -/
def vaultLookup (store : List (String × BsonDoc)) (altName : String) : DecodeResult :=
  match lastAssoc store altName with
  | some d => DecodeResult.ok d
  | none => DecodeResult.errNoDocuments

/-- The identifier `CreateDataKey` mints next against a given vault state. -/
def mintBinary (v : Vault) : Binary := Binary.mk 4 [v.fresh]

/-- The DEK document the vault stores for a freshly created identifier. -/
def dekDocFor (b : Binary) : BsonDoc := [("_id", BsonValue.binary b)]

/-- The vault state after `CreateDataKey` registers a new DEK under an
alternate name. -/
def vaultAfterCreate (v : Vault) (altName : String) : Vault :=
  Vault.mk (v.store ++ [(altName, dekDocFor (mintBinary v))]) (v.fresh + 1)

/-- A `DekWorld` in which environment, connection and handle creation are
healthy and the vault responses are derived from an explicit vault state. -/
def healthyWorld (rand : Nat → Nat) (fs : FsState) (v : Vault) : DekWorld :=
  DekWorld.mk (fun _ => "mongodb://localhost") fs rand true true
    (fun a => vaultLookup v.store a) (fun _ => some (mintBinary v))

/-- `GetDek` run against an explicit vault state, threading the vault and
file-system states it leaves behind (the vault gains the registered DEK
document exactly when `CreateDataKey` ran). -/
def GetDekVault (rand : Nat → Nat) (fs : FsState) (v : Vault) (p ns : String) :
    Except DekErr Binary × Vault × FsState :=
  let r := GetDek (healthyWorld rand fs v) p ns
  (r.1.map Prod.fst,
   (if r.2 then vaultAfterCreate v ("dek-" ++ p) else v),
   (LoadOrCreateMasterKey rand fs p).2)

/-- The auto-encryption options assembled by `NewEncClient` (utils
lines 111-116). -/
structure AutoEncryptionOpts where
  keyVaultNamespace : String
  kmsProviders : KmsProviders
  schemaMap : BsonDoc
  bypassAutoEncryption : Bool
deriving DecidableEq

/-- A connected client, recorded as the URI and auto-encryption options it
was configured with. -/
structure Client where
  uri : String
  autoEncryption : Option AutoEncryptionOpts
deriving DecidableEq

/-- Error taxonomy of `NewEncClient` (utils lines 106-124). -/
inductive EncClientErr
  | configErr
  | connectErr
deriving DecidableEq

/-- Embeds `NewEncClient` (utils lines 99-126): read `MONGODB_URI` from the
environment, assemble the auto-encryption options from the arguments, and
connect (connection failure injected by `connectFails`). -/
def NewEncClient (env : String → String) (connectFails : Bool)
    (keyVaultNamespace : String) (schemaMap : BsonDoc)
    (kmsProviders : KmsProviders) (bypassAutoEncryption : Bool) :
    Except EncClientErr Client :=
  let uri := env "MONGODB_URI"
  if uri = "" then Except.error EncClientErr.configErr
  else
    let autoEncryptionOpts :=
      AutoEncryptionOpts.mk keyVaultNamespace kmsProviders schemaMap bypassAutoEncryption
    if connectFails then Except.error EncClientErr.connectErr
    else Except.ok (Client.mk uri (some autoEncryptionOpts))

/-- The vault/KMS interactions `decryptBinaryValue` can perform, in order:
creating the client-encryption handle and the decrypt round trip. -/
inductive NetCall
  | newClientEncryption
  | decryptRoundTrip
deriving DecidableEq

/-- Error taxonomy of `decryptBinaryValue` (main.go lines 343-371). -/
inductive DecErr
  | emptyValue
  | clientEncErr
  | decryptFailed
deriving DecidableEq

/-- Embeds `decryptBinaryValue` (main.go lines 343-371): reject an empty
encrypted value before any handle creation or vault/KMS interaction, then
create the client-encryption handle and ask the collaborator to decrypt.
The second component is the trace of collaborator interactions performed. -/
def decryptBinaryValue (clientEncOk : Bool) (decryptResult : Option BsonValue)
    (encryptedValue : Binary) : Except DecErr BsonValue × List NetCall :=
  if encryptedValue.data.length = 0 then
    (Except.error DecErr.emptyValue, [])
  else if clientEncOk = false then
    (Except.error DecErr.clientEncErr, [NetCall.newClientEncryption])
  else
    match decryptResult with
    | some v => (Except.ok v, [NetCall.newClientEncryption, NetCall.decryptRoundTrip])
    | none =>
      (Except.error DecErr.decryptFailed,
       [NetCall.newClientEncryption, NetCall.decryptRoundTrip])

/-- Storage state holding a single 1-byte (short) master-key artifact for
provider `local:10`. -/
def shortKeyStore : FsState :=
  fun q => if q = masterKeyPath "local:10" then some [7] else none

/-- Storage state holding a single 97-byte (oversized) master-key artifact
for provider `local:10`. -/
def oversizedKeyStore : FsState :=
  fun q => if q = masterKeyPath "local:10" then some (List.replicate 97 0) else none

/-- A healthy world whose alternate-name lookup decodes to a DEK document
that carries no `_id` binary. -/
def malformedWorld : DekWorld :=
  DekWorld.mk (fun _ => "mongodb://localhost") (fun _ => none) (fun _ => 0) true true
    (fun _ => DecodeResult.ok [("keyAltNames", BsonValue.str "dek-local:10")])
    (fun _ => none)

/-- A healthy world whose alternate-name lookup fails with an error other
than the recognized not-found outcome. -/
def errOtherWorld : DekWorld :=
  DekWorld.mk (fun _ => "mongodb://localhost") (fun _ => none) (fun _ => 0) true true
    (fun _ => DecodeResult.errOther) (fun _ => some (Binary.mk 4 [9]))

/-! ### Helper lemmas -/

theorem mem_of_lastSlashIndexAux_some (l : List Char) (i : Nat)
    (h : lastSlashIndexAux l = some i) : '/' ∈ l := by
  induction l generalizing i with
  | nil => simp [lastSlashIndexAux] at h
  | cons c cs ih =>
    simp only [lastSlashIndexAux] at h
    cases hcs : lastSlashIndexAux cs with
    | some j =>
      exact List.mem_cons_of_mem c (ih j hcs)
    | none =>
      rw [hcs] at h
      by_cases hc : c = '/'
      · rw [hc]; exact List.mem_cons_self _ _
      · simp [hc] at h

theorem not_mem_of_lastSlashIndexAux_none (l : List Char)
    (h : lastSlashIndexAux l = none) : '/' ∉ l := by
  induction l with
  | nil => simp
  | cons c cs ih =>
    simp only [lastSlashIndexAux] at h
    cases hcs : lastSlashIndexAux cs with
    | some j => rw [hcs] at h; simp at h
    | none =>
      rw [hcs] at h
      by_cases hc : c = '/'
      · simp [hc] at h
      · intro hm
        rcases List.mem_cons.mp hm with h1 | h2
        · exact hc h1.symm
        · exact ih hcs h2

theorem takeWhile_append_of_all {α : Type} (P : α → Bool) (xs l : List α)
    (h : ∀ a ∈ xs, P a = true) :
    (xs ++ l).takeWhile P = xs ++ l.takeWhile P := by
  induction xs with
  | nil => simp
  | cons c cs ih =>
    have hc : P c = true := h c (List.mem_cons_self c cs)
    rw [List.cons_append, List.takeWhile_cons, hc,
      ih (fun a ha => h a (List.mem_cons_of_mem c ha))]
    simp

theorem takeWhile_append_of_bad {α : Type} (P : α → Bool) (xs l : List α)
    (h : ∃ a ∈ xs, P a = false) :
    (xs ++ l).takeWhile P = xs.takeWhile P := by
  induction xs with
  | nil =>
    rcases h with ⟨a, ha, _⟩
    cases ha
  | cons c cs ih =>
    by_cases hc : P c = true
    · rcases h with ⟨a, ha, hPa⟩
      rcases List.mem_cons.mp ha with h1 | hmem
      · rw [h1] at hPa
        rw [hPa] at hc
        cases hc
      · rw [List.cons_append, List.takeWhile_cons, List.takeWhile_cons, hc,
          ih ⟨a, hmem, hPa⟩]
    · have hc2 : P c = false := by
        cases hcv : P c with
        | false => rfl
        | true => exact absurd hcv hc
      rw [List.cons_append, List.takeWhile_cons, List.takeWhile_cons, hc2]
      simp

theorem drop_after_lastSlash (l : List Char) (i : Nat)
    (h : lastSlashIndexAux l = some i) :
    l.drop (i + 1) = (l.reverse.takeWhile (fun c => c != '/')).reverse := by
  induction l generalizing i with
  | nil => simp [lastSlashIndexAux] at h
  | cons c cs ih =>
    simp only [lastSlashIndexAux] at h
    cases hcs : lastSlashIndexAux cs with
    | some j =>
      rw [hcs] at h
      have hi : i = j + 1 := by
        have := Option.some.inj h
        omega
      subst hi
      have hmem : ('/' : Char) ∈ cs.reverse := by
        simpa using mem_of_lastSlashIndexAux_some cs j hcs
      have hbad : ∃ a ∈ cs.reverse, (fun x => x != '/') a = false :=
        ⟨'/', hmem, by decide⟩
      rw [List.drop_succ_cons, ih j hcs, List.reverse_cons,
        takeWhile_append_of_bad _ _ _ hbad]
    | none =>
      rw [hcs] at h
      by_cases hc : c = '/'
      · have hi : i = 0 := by
          rw [if_pos hc] at h
          exact (Option.some.inj h).symm
        subst hi
        have hall : ∀ a ∈ cs.reverse, (fun x => x != '/') a = true := by
          intro a ha
          have hmem : a ∈ cs := by simpa using ha
          have hne : a ≠ '/' := by
            intro he
            exact (not_mem_of_lastSlashIndexAux_none cs hcs) (he ▸ hmem)
          simpa using hne
        rw [List.drop_succ_cons, List.drop_zero, List.reverse_cons, hc,
          takeWhile_append_of_all _ _ _ hall]
        simp
      · rw [if_neg hc] at h
        cases h

/-! ### Claims about GetProviderName -/

/-- C2 counterexample: on `"a/"` the last separator sits at index 1 > 0 but
the trailing segment is empty, and `GetProviderName` nevertheless succeeds,
so success is not equivalent to the conjunction the claim states. -/
theorem getProviderName_empty_tail_succeeds :
    exOk (GetProviderName "a/") = true ∧ trailingSegment "a/" = "" := by
  constructor
  · rfl
  · rfl

/-- C2 (amended): `GetProviderName` succeeds exactly when a separator exists
at a position greater than zero — the trailing segment is not required to be
non-empty — and in every other case it fails with the format error. -/
theorem getProviderName_ok_iff (s : String) :
    (exOk (GetProviderName s) = true ↔ 0 < lastSlashIndex s)
    ∧ (¬ 0 < lastSlashIndex s →
        GetProviderName s = Except.error ("invalid Dev org DON format: " ++ s)) := by
  constructor
  · by_cases h : 0 < lastSlashIndex s <;> simp [GetProviderName, h, exOk]
  · intro h
    simp [GetProviderName, h]

/-- C2 witness: the spec's own example input without a separator fails with
the format error. -/
theorem getProviderName_ok_iff_witness :
    GetProviderName "no-separator-here"
      = Except.error ("invalid Dev org DON format: " ++ "no-separator-here") :=
  (getProviderName_ok_iff "no-separator-here").2 (by decide)

/-- C5: on every tenant identifier whose last separator sits at a positive
index and whose trailing segment is non-empty, `GetProviderName` returns
`"local:"` concatenated with the trailing segment. -/
theorem getProviderName_valid (s : String) (h1 : 0 < lastSlashIndex s)
    (h2 : trailingSegment s ≠ "") :
    GetProviderName s = Except.ok ("local:" ++ trailingSegment s) := by
  cases haux : lastSlashIndexAux s.data with
  | none =>
    rw [lastSlashIndex, haux] at h1
    exact absurd h1 (by decide)
  | some i =>
    have hidx : lastSlashIndex s = (i : Int) := by
      rw [lastSlashIndex, haux]
    have hpos : 0 < (i : Int) := by
      rw [hidx] at h1
      exact h1
    have htn : ((i : Int)).toNat = i := rfl
    unfold GetProviderName trailingSegment
    rw [hidx, if_pos hpos, htn, drop_after_lastSlash s.data i haux]

/-- C5 witness: the spec's example identifier maps to `local:10`. -/
theorem getProviderName_valid_witness :
    GetProviderName "don:identity:dvrv-us-1:devo/10" = Except.ok "local:10" := by
  rw [getProviderName_valid "don:identity:dvrv-us-1:devo/10" (by decide) (by decide)]
  rfl

/-! ### Claims about LoadOrCreateMasterKey -/

theorem loadOrCreate_ok_length (rand : Nat → Nat) (fs : FsState) (p : String)
    (key : List Nat) (h : (LoadOrCreateMasterKey rand fs p).1 = Except.ok key) :
    key.length = keySize := by
  unfold LoadOrCreateMasterKey at h
  cases hf : fs (masterKeyPath p) with
  | none =>
    rw [hf] at h
    simp only [] at h
    have hk := Except.ok.inj h
    rw [← hk]
    simp
  | some content =>
    rw [hf] at h
    simp only [] at h
    by_cases hempty : content.isEmpty = true
    · rw [if_pos hempty] at h
      cases h
    · rw [if_neg hempty] at h
      by_cases hmin : min content.length keySize ≠ keySize
      · rw [if_pos hmin] at h
        cases h
      · rw [if_neg hmin] at h
        have hk := Except.ok.inj h
        rw [← hk, List.length_take]
        omega

theorem loadOrCreate_ok_again (rand rand2 : Nat → Nat) (fs : FsState) (p : String)
    (key : List Nat) (h : (LoadOrCreateMasterKey rand fs p).1 = Except.ok key) :
    (LoadOrCreateMasterKey rand2 (LoadOrCreateMasterKey rand fs p).2 p).1 = Except.ok key := by
  unfold LoadOrCreateMasterKey at h ⊢
  cases hf : fs (masterKeyPath p) with
  | none =>
    rw [hf] at h
    simp only [] at h ⊢
    have hk := Except.ok.inj h
    rw [if_pos trivial]
    simp only []
    have hgen : ¬ ((List.range keySize).map rand).isEmpty = true := by
      simp [List.isEmpty_iff, keySize]
    rw [if_neg hgen]
    have hminkey : ¬ min ((List.range keySize).map rand).length keySize ≠ keySize := by
      simp
    rw [if_neg hminkey]
    have htake : ((List.range keySize).map rand).take keySize
        = (List.range keySize).map rand := by
      apply List.take_of_length_le
      simp
    rw [htake, hk]
  | some content =>
    rw [hf] at h
    simp only [] at h ⊢
    by_cases hempty : content.isEmpty = true
    · rw [if_pos hempty] at h
      cases h
    · rw [if_neg hempty] at h ⊢
      by_cases hmin : min content.length keySize ≠ keySize
      · rw [if_pos hmin] at h
        cases h
      · rw [if_neg hmin] at h ⊢
        simp only [] at h ⊢
        rw [hf]
        simp only []
        rw [if_neg hempty, if_neg hmin]
        exact h

/-- C9: every successful return of `LoadOrCreateMasterKey`, on the generate
path and on the read-existing path alike, is a byte sequence of exactly 96
bytes. -/
theorem loadOrCreateMasterKey_returns_96_bytes (rand : Nat → Nat) (fs : FsState)
    (p : String) (key : List Nat)
    (h : (LoadOrCreateMasterKey rand fs p).1 = Except.ok key) :
    key.length = keySize :=
  loadOrCreate_ok_length rand fs p key h

/-- C9 witness: reading an existing 96-byte artifact succeeds and the result
has 96 bytes. -/
theorem loadOrCreateMasterKey_returns_96_bytes_witness :
    (List.replicate keySize (3 : Nat)).length = keySize :=
  loadOrCreateMasterKey_returns_96_bytes (fun _ => 0)
    (fun q => if q = masterKeyPath "local:10" then some (List.replicate keySize 3) else none)
    "local:10" (List.replicate keySize 3) (by rfl)

/-- C3 (code bug): a persisted 97-byte artifact does not fail the size check:
the single read fills the 96-byte buffer, `n = 96` passes, and the call
succeeds with the silently truncated first 96 bytes of the artifact. -/
theorem loadOrCreate_oversized_artifact_truncates :
    (LoadOrCreateMasterKey (fun _ => 0) oversizedKeyStore "local:10").1
      = Except.ok (List.replicate keySize 0)
    ∧ (List.replicate 97 (0 : Nat)).length ≠ keySize := by
  constructor
  · rfl
  · decide

/-- C4 counterexample: from a storage state holding a short (1-byte) artifact
for the provider, the two successive calls do not both succeed, so it is not
the case that for every starting storage state both calls return identical
keys. -/
theorem loadOrCreate_idempotent_cex :
    ¬ ∃ key, (LoadOrCreateMasterKey (fun _ => 0) shortKeyStore "local:10").1
        = Except.ok key
      ∧ (LoadOrCreateMasterKey (fun _ => 0)
          (LoadOrCreateMasterKey (fun _ => 0) shortKeyStore "local:10").2 "local:10").1
        = Except.ok key := by
  rintro ⟨key, h1, h2⟩
  have he : (LoadOrCreateMasterKey (fun _ => 0) shortKeyStore "local:10").1
      = Except.error (KeyErr.sizeMismatch 1) := rfl
  rw [he] at h1
  cases h1

/-- C4 (amended): whenever the first call succeeds for a provider, a second
call against the storage state the first call leaves behind also succeeds and
returns the bit-identical 96-byte key, regardless of the random source. -/
theorem loadOrCreateMasterKey_idempotent (rand rand2 : Nat → Nat) (fs : FsState)
    (p : String) (key : List Nat)
    (h : (LoadOrCreateMasterKey rand fs p).1 = Except.ok key) :
    (LoadOrCreateMasterKey rand2 (LoadOrCreateMasterKey rand fs p).2 p).1 = Except.ok key
    ∧ key.length = keySize :=
  ⟨loadOrCreate_ok_again rand rand2 fs p key h,
   loadOrCreate_ok_length rand fs p key h⟩

/-- C4 witness: starting from empty storage, the key generated by the first
call is read back bit-identically by the second call. -/
theorem loadOrCreateMasterKey_idempotent_witness :
    (LoadOrCreateMasterKey (fun _ => 1)
        (LoadOrCreateMasterKey (fun _ => 1) (fun _ => none) "local:10").2 "local:10").1
      = Except.ok ((List.range keySize).map (fun _ => 1))
    ∧ ((List.range keySize).map (fun _ => 1)).length = keySize :=
  loadOrCreateMasterKey_idempotent (fun _ => 1) (fun _ => 1) (fun _ => none) "local:10"
    ((List.range keySize).map (fun _ => 1)) (by rfl)

/-! ### Claims about GetDek -/

theorem afterLookup_created_iff (dr : DecodeResult) (cr : Option Binary) :
    (getDekAfterLookup dr cr).2 = true ↔ dr = DecodeResult.errNoDocuments := by
  cases dr with
  | errNoDocuments => cases cr <;> simp [getDekAfterLookup]
  | errOther => simp [getDekAfterLookup]
  | ok d =>
    simp only [getDekAfterLookup]
    cases hid : docMapGet d "_id" with
    | none => simp
    | some v => cases v <;> simp

theorem getDek_eq_of_ready (w : DekWorld) (p ns : String) (key : List Nat)
    (henv : ¬ w.env "MONGODB_URI" = "")
    (hmk : (LoadOrCreateMasterKey w.rand w.fs p).1 = Except.ok key)
    (hcon : w.connectOk = true) (hce : w.clientEncOk = true) :
    GetDek w p ns =
      ((getDekAfterLookup (w.lookup ("dek-" ++ p)) (w.create ("dek-" ++ p))).1.map
          (fun b => (b, [(p, key)])),
       (getDekAfterLookup (w.lookup ("dek-" ++ p)) (w.create ("dek-" ++ p))).2) := by
  unfold GetDek
  rw [if_neg henv, hmk]
  simp [hcon, hce]

theorem getDek_cases (w : DekWorld) (p ns : String) :
    (exErr (GetDek w p ns).1 = true ∧ (GetDek w p ns).2 = false)
    ∨ ∃ key, (LoadOrCreateMasterKey w.rand w.fs p).1 = Except.ok key
        ∧ GetDek w p ns =
          ((getDekAfterLookup (w.lookup ("dek-" ++ p)) (w.create ("dek-" ++ p))).1.map
              (fun b => (b, [(p, key)])),
           (getDekAfterLookup (w.lookup ("dek-" ++ p)) (w.create ("dek-" ++ p))).2) := by
  by_cases henv : w.env "MONGODB_URI" = ""
  · left
    unfold GetDek
    rw [if_pos henv]
    exact ⟨rfl, rfl⟩
  · cases hmk : (LoadOrCreateMasterKey w.rand w.fs p).1 with
    | error e =>
      left
      unfold GetDek
      rw [if_neg henv, hmk]
      exact ⟨rfl, rfl⟩
    | ok key =>
      cases hcon : w.connectOk with
      | false =>
        left
        unfold GetDek
        rw [if_neg henv, hmk]
        simp only [hcon]
        exact ⟨rfl, rfl⟩
      | true =>
        cases hce : w.clientEncOk with
        | false =>
          left
          unfold GetDek
          rw [if_neg henv, hmk]
          simp only [hcon, hce]
          exact ⟨rfl, rfl⟩
        | true =>
          right
          exact ⟨key, rfl, getDek_eq_of_ready w p ns key henv hmk hcon hce⟩

/-- C1: `CreateDataKey` is invoked only when the alternate-name lookup decode
returned the verified not-found outcome, and on any other lookup/decode
failure `GetDek` returns an error without creating a DEK. -/
theorem getDek_creates_only_on_verified_notFound (w : DekWorld) (p ns : String) :
    ((GetDek w p ns).2 = true → w.lookup ("dek-" ++ p) = DecodeResult.errNoDocuments)
    ∧ (w.lookup ("dek-" ++ p) = DecodeResult.errOther →
        exErr (GetDek w p ns).1 = true ∧ (GetDek w p ns).2 = false) := by
  rcases getDek_cases w p ns with ⟨herr, hsnd⟩ | ⟨key, hmk, heq⟩
  · constructor
    · intro hcr
      rw [hsnd] at hcr
      cases hcr
    · intro hlk
      exact ⟨herr, hsnd⟩
  · constructor
    · intro hcr
      rw [heq] at hcr
      exact (afterLookup_created_iff _ _).mp hcr
    · intro hlk
      rw [heq, hlk]
      simp [getDekAfterLookup, exErr, Except.map]

/-- C1 witness: in a world whose lookup fails with an error other than
not-found, `GetDek` returns an error and attempts no creation. -/
theorem getDek_creates_only_on_verified_notFound_witness :
    exErr (GetDek errOtherWorld "local:10" "qe_keyvault.datakeys").1 = true
    ∧ (GetDek errOtherWorld "local:10" "qe_keyvault.datakeys").2 = false :=
  (getDek_creates_only_on_verified_notFound errOtherWorld "local:10"
    "qe_keyvault.datakeys").2 rfl

/-- C10: when the alternate-name lookup decodes to a document without a
binary `_id`, `GetDek` returns an error and does not create a new DEK. -/
theorem getDek_malformed_doc_errors (w : DekWorld) (p ns : String) (doc : BsonDoc)
    (hl : w.lookup ("dek-" ++ p) = DecodeResult.ok doc)
    (hid : hasBinaryId doc = false) :
    exErr (GetDek w p ns).1 = true ∧ (GetDek w p ns).2 = false := by
  rcases getDek_cases w p ns with ⟨herr, hsnd⟩ | ⟨key, hmk, heq⟩
  · exact ⟨herr, hsnd⟩
  · rw [heq, hl]
    unfold hasBinaryId at hid
    cases hdoc : docMapGet doc "_id" with
    | none => simp [getDekAfterLookup, hdoc, exErr, Except.map]
    | some v =>
      rw [hdoc] at hid
      cases v with
      | binary b => cases hid
      | str s3 => simp [getDekAfterLookup, hdoc, exErr, Except.map]
      | int n3 => simp [getDekAfterLookup, hdoc, exErr, Except.map]

/-- C10 witness: a healthy world whose lookup returns a document lacking a
binary `_id` yields an error and no creation. -/
theorem getDek_malformed_doc_errors_witness :
    exErr (GetDek malformedWorld "local:10" "qe_keyvault.datakeys").1 = true
    ∧ (GetDek malformedWorld "local:10" "qe_keyvault.datakeys").2 = false :=
  getDek_malformed_doc_errors malformedWorld "local:10" "qe_keyvault.datakeys"
    [("keyAltNames", BsonValue.str "dek-local:10")] rfl rfl

theorem lastAssoc_append_self {β : Type} (xs : List (String × β)) (k : String) (b : β) :
    lastAssoc (xs ++ [(k, b)]) k = some b := by
  unfold lastAssoc
  rw [List.foldl_append]
  simp

theorem lastAssoc_singleton {β : Type} (k : String) (b : β) :
    lastAssoc [(k, b)] k = some b := by
  simp [lastAssoc]

theorem getDekVault_mk_error (rand : Nat → Nat) (fs : FsState) (v : Vault)
    (p ns : String) (e : KeyErr)
    (hmk : (LoadOrCreateMasterKey rand fs p).1 = Except.error e) :
    (GetDekVault rand fs v p ns).1 = Except.error (DekErr.masterKeyErr e) := by
  unfold GetDekVault GetDek healthyWorld
  simp only []
  rw [if_neg (by simp), hmk]
  rfl

theorem getDekVault_ready (rand : Nat → Nat) (fs : FsState) (v : Vault)
    (p ns : String) (key : List Nat)
    (hmk : (LoadOrCreateMasterKey rand fs p).1 = Except.ok key) :
    GetDekVault rand fs v p ns =
      ((getDekAfterLookup (vaultLookup v.store ("dek-" ++ p)) (some (mintBinary v))).1,
       (if (getDekAfterLookup (vaultLookup v.store ("dek-" ++ p)) (some (mintBinary v))).2
        then vaultAfterCreate v ("dek-" ++ p) else v),
       (LoadOrCreateMasterKey rand fs p).2) := by
  unfold GetDekVault
  rw [getDek_eq_of_ready (healthyWorld rand fs v) p ns key (by simp [healthyWorld]) hmk
    rfl rfl]
  have hlk : (healthyWorld rand fs v).lookup ("dek-" ++ p)
      = vaultLookup v.store ("dek-" ++ p) := rfl
  have hcr : (healthyWorld rand fs v).create ("dek-" ++ p) = some (mintBinary v) := rfl
  rw [hlk, hcr]
  cases hres : (getDekAfterLookup (vaultLookup v.store ("dek-" ++ p))
      (some (mintBinary v))).1 with
  | ok b => simp [Except.map]
  | error e => simp [Except.map]

theorem getDekVault_found (rand : Nat → Nat) (fs : FsState) (v : Vault)
    (p ns : String) (key : List Nat) (doc : BsonDoc) (b : Binary)
    (hmk : (LoadOrCreateMasterKey rand fs p).1 = Except.ok key)
    (hvl : lastAssoc v.store ("dek-" ++ p) = some doc)
    (hid : docMapGet doc "_id" = some (BsonValue.binary b)) :
    GetDekVault rand fs v p ns = (Except.ok b, v, (LoadOrCreateMasterKey rand fs p).2) := by
  rw [getDekVault_ready rand fs v p ns key hmk]
  rw [show vaultLookup v.store ("dek-" ++ p) = DecodeResult.ok doc from by
    unfold vaultLookup
    rw [hvl]]
  simp [getDekAfterLookup, hid]

theorem getDekVault_notFound (rand : Nat → Nat) (fs : FsState) (v : Vault)
    (p ns : String) (key : List Nat)
    (hmk : (LoadOrCreateMasterKey rand fs p).1 = Except.ok key)
    (hvl : lastAssoc v.store ("dek-" ++ p) = none) :
    GetDekVault rand fs v p ns =
      (Except.ok (mintBinary v), vaultAfterCreate v ("dek-" ++ p),
       (LoadOrCreateMasterKey rand fs p).2) := by
  rw [getDekVault_ready rand fs v p ns key hmk]
  rw [show vaultLookup v.store ("dek-" ++ p) = DecodeResult.errNoDocuments from by
    unfold vaultLookup
    rw [hvl]]
  simp [getDekAfterLookup]

/-- C6: the alternate name is the pure function `"dek-" ++ providerName` of
the provider name, and whenever a `GetDek` run against a vault state returns
a DEK identifier, a second run against the state the first one leaves behind
returns the same identifier — it finds by alternate name the DEK the first
call found or created. -/
theorem getDekVault_second_call_same_dek (rand rand2 : Nat → Nat) (fs : FsState)
    (v : Vault) (p ns : String) (k : Binary)
    (h : (GetDekVault rand fs v p ns).1 = Except.ok k) :
    (GetDekVault rand2 (GetDekVault rand fs v p ns).2.2 (GetDekVault rand fs v p ns).2.1
        p ns).1 = Except.ok k := by
  cases hmk : (LoadOrCreateMasterKey rand fs p).1 with
  | error e =>
    rw [getDekVault_mk_error rand fs v p ns e hmk] at h
    cases h
  | ok key =>
    have hmk2 := loadOrCreate_ok_again rand rand2 fs p key hmk
    cases hvl : lastAssoc v.store ("dek-" ++ p) with
    | none =>
      rw [getDekVault_notFound rand fs v p ns key hmk hvl] at h ⊢
      simp only [] at h ⊢
      have hk : k = mintBinary v := (Except.ok.inj h).symm
      rw [getDekVault_found rand2 (LoadOrCreateMasterKey rand fs p).2
        (vaultAfterCreate v ("dek-" ++ p)) p ns key (dekDocFor (mintBinary v))
        (mintBinary v) hmk2
        (lastAssoc_append_self v.store ("dek-" ++ p) (dekDocFor (mintBinary v)))
        (lastAssoc_singleton "_id" (BsonValue.binary (mintBinary v)))]
      rw [hk]
    | some doc =>
      cases hid : docMapGet doc "_id" with
      | none =>
        rw [getDekVault_ready rand fs v p ns key hmk] at h
        rw [show vaultLookup v.store ("dek-" ++ p) = DecodeResult.ok doc from by
          unfold vaultLookup
          rw [hvl]] at h
        simp [getDekAfterLookup, hid] at h
      | some idVal =>
        cases idVal with
        | binary b =>
          rw [getDekVault_found rand fs v p ns key doc b hmk hvl hid] at h ⊢
          simp only [] at h ⊢
          rw [getDekVault_found rand2 (LoadOrCreateMasterKey rand fs p).2 v p ns key
            doc b hmk2 hvl hid]
          exact h
        | str s4 =>
          rw [getDekVault_ready rand fs v p ns key hmk] at h
          rw [show vaultLookup v.store ("dek-" ++ p) = DecodeResult.ok doc from by
            unfold vaultLookup
            rw [hvl]] at h
          simp [getDekAfterLookup, hid] at h
        | int n4 =>
          rw [getDekVault_ready rand fs v p ns key hmk] at h
          rw [show vaultLookup v.store ("dek-" ++ p) = DecodeResult.ok doc from by
            unfold vaultLookup
            rw [hvl]] at h
          simp [getDekAfterLookup, hid] at h

/-- C6 witness: from empty storage and an empty vault, the first call creates
the DEK and the second call returns the same identifier. -/
theorem getDekVault_second_call_same_dek_witness :
    (GetDekVault (fun _ => 2)
        (GetDekVault (fun _ => 2) (fun _ => none) (Vault.mk [] 0) "local:10"
          "qe_keyvault.datakeys").2.2
        (GetDekVault (fun _ => 2) (fun _ => none) (Vault.mk [] 0) "local:10"
          "qe_keyvault.datakeys").2.1
        "local:10" "qe_keyvault.datakeys").1
      = Except.ok (mintBinary (Vault.mk [] 0)) :=
  getDekVault_second_call_same_dek (fun _ => 2) (fun _ => 2) (fun _ => none)
    (Vault.mk [] 0) "local:10" "qe_keyvault.datakeys" (mintBinary (Vault.mk [] 0))
    (by rfl)

/-! ### Claims about NewEncClient -/

/-- C7 counterexample: with identical arguments (vault namespace, schema map,
KMS config, bypass flag) but different environments, `NewEncClient` returns
different results, so its result is not a function of those arguments alone
and it does read external state. -/
theorem newEncClient_reads_environment :
    NewEncClient (fun _ => "") false "qe_keyvault.datakeys" [] [] false
      ≠ NewEncClient (fun _ => "mongodb://localhost") false "qe_keyvault.datakeys"
          [] [] false := by
  intro h
  have h1 : NewEncClient (fun _ => "") false "qe_keyvault.datakeys" [] [] false
      = Except.error EncClientErr.configErr := rfl
  have h2 : NewEncClient (fun _ => "mongodb://localhost") false "qe_keyvault.datakeys"
        [] [] false
      = Except.ok (Client.mk "mongodb://localhost"
          (some (AutoEncryptionOpts.mk "qe_keyvault.datakeys" [] [] false))) := rfl
  rw [h1, h2] at h
  cases h

/-- C7 (amended): the auto-encryption options are assembled purely from the
arguments — on success the client is configured with exactly the options
built from them — but the overall result is a function of the arguments
together with the `MONGODB_URI` environment value and the connection outcome,
which `NewEncClient` does consult. -/
theorem newEncClient_determined_by_args_env_conn (env env2 : String → String)
    (cf cf2 : Bool) (ns : String) (sm : BsonDoc) (kp : KmsProviders) (bp : Bool)
    (henv : env "MONGODB_URI" = env2 "MONGODB_URI") (hcf : cf = cf2) :
    NewEncClient env cf ns sm kp bp = NewEncClient env2 cf2 ns sm kp bp
    ∧ (∀ c, NewEncClient env cf ns sm kp bp = Except.ok c →
        c.autoEncryption = some (AutoEncryptionOpts.mk ns kp sm bp)) := by
  subst hcf
  constructor
  · unfold NewEncClient
    rw [henv]
  · intro c hc
    unfold NewEncClient at hc
    by_cases h0 : env "MONGODB_URI" = ""
    · rw [if_pos h0] at hc
      cases hc
    · rw [if_neg h0] at hc
      simp only [] at hc
      by_cases hcf2 : cf = true
      · rw [if_pos hcf2] at hc
        cases hc
      · rw [if_neg hcf2] at hc
        have := Except.ok.inj hc
        rw [← this]

/-- C7 witness: two environments agreeing on `MONGODB_URI` give the same
result at concrete arguments. -/
theorem newEncClient_determined_witness :
    NewEncClient (fun _ => "mongodb://localhost") false "qe_keyvault.datakeys" [] [] false
      = NewEncClient
          (fun q => if q = "MONGODB_URI" then "mongodb://localhost" else "") false
          "qe_keyvault.datakeys" [] [] false :=
  (newEncClient_determined_by_args_env_conn (fun _ => "mongodb://localhost")
    (fun q => if q = "MONGODB_URI" then "mongodb://localhost" else "") false false
    "qe_keyvault.datakeys" [] [] false (by decide) rfl).1

/-! ### Claims about decryptBinaryValue -/

/-- C8: an empty encrypted value makes `decryptBinaryValue` fail with the
empty-value error, with an empty interaction trace: no client-encryption
handle is created and no vault/KMS round trip happens. -/
theorem decryptBinaryValue_empty_no_network (clientEncOk : Bool)
    (decryptResult : Option BsonValue) (b : Binary) (h : b.data = []) :
    decryptBinaryValue clientEncOk decryptResult b
      = (Except.error DecErr.emptyValue, []) := by
  unfold decryptBinaryValue
  rw [h]
  simp

/-- C8 witness: the concrete empty binary value fails with the empty-value
error and an empty trace even when the collaborator could decrypt. -/
theorem decryptBinaryValue_empty_no_network_witness :
    decryptBinaryValue true (some (BsonValue.str "987-65-4320")) (Binary.mk 6 [])
      = (Except.error DecErr.emptyValue, []) :=
  decryptBinaryValue_empty_no_network true (some (BsonValue.str "987-65-4320"))
    (Binary.mk 6 []) rfl

end MongoEncPoc
